import Mathlib

/-!
Verification of the metassr-bench comparison harness (src/compare.py, src/benchmark.py).

The Python source is shallowly embedded: pure text processing becomes functions on
`List Char`, Python `float` values become `ℚ`, fallible code (Python exceptions)
returns `Option`/`Except`, and the orchestration loop of `compare.py::main` becomes
a fold over an environment describing the outcome of each external phase
(build / start / readiness / benchmark) for each configured framework.

Python's `re` module is embedded for the five concrete patterns used by the code,
with the character classes restricted to ASCII (all inputs the harness parses are
ASCII `wrk` output).
-/

set_option autoImplicit false

namespace MetassrBench

/-! ### Character classes (ASCII restriction of Python `\d`, `\s`, `\w`, `[\d.]`) -/

/-- Python `\s` (ASCII part): space, tab, newline, carriage return, vertical tab, form feed. -/
def isSpaceChar (c : Char) : Bool :=
  c = ' ' || c = '\t' || c = '\n' || c = '\r' || c = '\x0b' || c = '\x0c'

/-- The regex class `[\d.]`: a decimal digit or a dot. -/
def isDigitDot (c : Char) : Bool :=
  c.isDigit || c = '.'

/-- Python `\w` (ASCII part): letters, digits, underscore. -/
def isWordChar (c : Char) : Bool :=
  c.isAlphanum || c = '_'

/-! ### Generic pieces of the regex engine -/

/-- Strip a literal from the front of the input; `none` when the literal is absent. -/
def stripLit : List Char → List Char → Option (List Char)
  | [], s => some s
  | _ :: _, [] => none
  | l :: ls, c :: cs => if c = l then stripLit ls cs else none

/-- `re.search` driver: try the anchored matcher at every start position,
left to right, returning the first success (Python scans positions 0..len). -/
def reSearch {α : Type} (m : List Char → Option α) : List Char → Option α
  | [] => m []
  | c :: rest =>
    match m (c :: rest) with
    | some r => some r
    | none => reSearch m rest

/-- Match `\s+` at the start and return the remainder, or `none` if no leading space. -/
def spacesThen (s : List Char) : Option (List Char) :=
  if (s.takeWhile isSpaceChar).isEmpty then none else some (s.dropWhile isSpaceChar)

/-- Digit string to the natural number Python's `int()` produces on a `\d+` capture. -/
def natOfDigits (cs : List Char) : Nat :=
  cs.foldl (fun n c => 10 * n + (c.toNat - 48)) 0

/-- Python `float()` applied to a `[\d.]+` capture.  Such a string is a valid float
literal iff it contains at least one digit and at most one dot (`float(".")` and
`float("1.2.3")` raise `ValueError`, embedded as `none`). -/
def pythonFloat (cs : List Char) : Option ℚ :=
  if cs.any Char.isDigit && cs.count '.' ≤ 1 then
    some ((natOfDigits (cs.takeWhile (fun c => ¬ c = '.')) : ℚ) +
      (natOfDigits ((cs.dropWhile (fun c => ¬ c = '.')).drop 1) : ℚ) /
        (10 : ℚ) ^ ((cs.dropWhile (fun c => ¬ c = '.')).drop 1).length)
  else none

/-- Backtracking step of the anchored match `([\d.]+)(\w+)`: largest group-1 length
`k ∈ [1, bound]` such that the character at position `k` of `s` is a word character
(Python's greedy `[\d.]+` gives back characters until `\w+` can start). -/
def findSplitLen (s : List Char) : Nat → Option Nat
  | 0 => none
  | k + 1 =>
    match s.get? (k + 1) with
    | some c => if isWordChar c then some (k + 1) else findSplitLen s k
    | none => findSplitLen s k

/-- Anchored match of `([\d.]+)(\w+)` (the pattern of `parse_latency_ms`), returning
both captures.  Group 1 is the greedy-with-backtracking `[\d.]+`, group 2 the greedy
`\w+` run that follows. -/
def reMatchNumWord (s : List Char) : Option (List Char × List Char) :=
  match findSplitLen s (s.takeWhile isDigitDot).length with
  | none => none
  | some k => some (s.take k, (s.drop k).takeWhile isWordChar)

/-! ### `parse_latency_ms` (compare.py lines 81-91; benchmark.py lines 97-111 is
the same function verbatim up to variable names) -/

/-- Embedding of `parse_latency_ms`.  `none` models the `ValueError` raised by
`float()` when the `[\d.]+` capture is not a valid float literal; every other
outcome is `some` of the returned millisecond value. -/
def parse_latency_ms (s : List Char) : Option ℚ :=
  if s.isEmpty then some 0
  else
    match reMatchNumWord s with
    | none => some 0
    | some (numPart, unitPart) =>
      match pythonFloat numPart with
      | none => none
      | some v =>
        if unitPart.map Char.toLower = ['u', 's'] then some (v / 1000)
        else if unitPart.map Char.toLower = ['m', 's'] then some v
        else if unitPart.map Char.toLower = ['s'] then some (v * 1000)
        else some v

/-! ### `parse_wrk` (compare.py lines 93-105; benchmark.py `parse_wrk_output`,
lines 113-152, is the same computation).  One anchored matcher per pattern,
each driven through `reSearch`. -/

/-- Anchored matcher for `Requests/sec:\s+([\d.]+)`; returns the capture. -/
def matchRequestsSec (s : List Char) : Option (List Char) :=
  match stripLit (("Requests/sec:").data) s with
  | none => none
  | some r1 =>
    match spacesThen r1 with
    | none => none
    | some r2 =>
      if (r2.takeWhile isDigitDot).isEmpty then none else some (r2.takeWhile isDigitDot)

/-- The capture of `([\d.]+\w+)` anchored at `s` (the two groups of
`reMatchNumWord` concatenated), or `none` when the pattern does not match here. -/
def numWordCapture (s : List Char) : Option (List Char) :=
  match reMatchNumWord s with
  | none => none
  | some (a, b) => some (a ++ b)

/-- Anchored matcher for `Latency\s+([\d.]+\w+)`. -/
def matchLatencyLine (s : List Char) : Option (List Char) :=
  match stripLit (("Latency").data) s with
  | none => none
  | some r1 =>
    match spacesThen r1 with
    | none => none
    | some r2 => numWordCapture r2

/-- Anchored matcher for `99%\s+([\d.]+\w+)`. -/
def matchP99Line (s : List Char) : Option (List Char) :=
  match stripLit (("99%").data) s with
  | none => none
  | some r1 =>
    match spacesThen r1 with
    | none => none
    | some r2 => numWordCapture r2

/-- Anchored matcher for `(\d+)\s+requests in`. -/
def matchRequestsIn (s : List Char) : Option (List Char) :=
  if (s.takeWhile Char.isDigit).isEmpty then none
  else
    match spacesThen (s.drop (s.takeWhile Char.isDigit).length) with
    | none => none
    | some r2 =>
      match stripLit (("requests in").data) r2 with
      | some _ => some (s.takeWhile Char.isDigit)
      | none => none

/-- Tail of `Socket errors:.*?(\d+)`: the lazy `.*?` (which does not cross a
newline) expands until `(\d+)` can match, so the capture is the maximal digit run
starting at the first digit on the same line; `none` if the line ends first. -/
def scanDigitsLine : List Char → Option (List Char)
  | [] => none
  | c :: rest =>
    if c.isDigit then some ((c :: rest).takeWhile Char.isDigit)
    else if c = '\n' then none
    else scanDigitsLine rest

/-- Anchored matcher for `Socket errors:.*?(\d+)`. -/
def matchSocketErr (s : List Char) : Option (List Char) :=
  match stripLit (("Socket errors:").data) s with
  | none => none
  | some r1 => scanDigitsLine r1

/-- The structured record `parse_wrk` builds (its local dict `r`). -/
structure MetricsRecord where
  rps : ℚ
  latency : String
  latency_ms : ℚ
  p99 : String
  p99_ms : ℚ
  requests : Nat
  errors : Nat
deriving Repr, DecidableEq

/-- The all-default record `parse_wrk` starts from (compare.py line 94). -/
def zeroMetrics : MetricsRecord :=
  { rps := 0, latency := "0ms", latency_ms := 0, p99 := "0ms", p99_ms := 0,
    requests := 0, errors := 0 }

/-- The `Requests/sec` field: `0` when the pattern is absent; `float()` of the
capture otherwise, which can raise (`Except.error`) on a capture like `"."`. -/
def extractRps (output : List Char) : Except String ℚ :=
  match reSearch matchRequestsSec output with
  | none => Except.ok 0
  | some num =>
    match pythonFloat num with
    | none => Except.error ("ValueError")
    | some v => Except.ok v

/-- The average-latency fields (label and normalized ms value). -/
def extractLatency (output : List Char) : Except String (String × ℚ) :=
  match reSearch matchLatencyLine output with
  | none => Except.ok ("0ms", 0)
  | some cap =>
    match parse_latency_ms cap with
    | none => Except.error ("ValueError")
    | some v => Except.ok (String.mk cap, v)

/-- The p99-latency fields (label and normalized ms value). -/
def extractP99 (output : List Char) : Except String (String × ℚ) :=
  match reSearch matchP99Line output with
  | none => Except.ok ("0ms", 0)
  | some cap =>
    match parse_latency_ms cap with
    | none => Except.error ("ValueError")
    | some v => Except.ok (String.mk cap, v)

/-- The total-requests field; an `int()` of a `\d+` capture never raises. -/
def extractRequests (output : List Char) : Nat :=
  match reSearch matchRequestsIn output with
  | none => 0
  | some d => natOfDigits d

/-- The socket-errors field; first integer on the `Socket errors:` line. -/
def extractErrors (output : List Char) : Nat :=
  match reSearch matchSocketErr output with
  | none => 0
  | some d => natOfDigits d

/-- Embedding of `parse_wrk` (compare.py lines 93-105).  Fields are looked up
independently, in source order; `Except.error` models an uncaught `ValueError`
from `float()` on a degenerate `[\d.]+` capture. -/
def parse_wrk (output : List Char) : Except String MetricsRecord :=
  match extractRps output with
  | Except.error e => Except.error e
  | Except.ok rps =>
    match extractLatency output with
    | Except.error e => Except.error e
    | Except.ok latPair =>
      match extractP99 output with
      | Except.error e => Except.error e
      | Except.ok p99Pair =>
        Except.ok
          { rps := rps, latency := latPair.1, latency_ms := latPair.2,
            p99 := p99Pair.1, p99_ms := p99Pair.2,
            requests := extractRequests output, errors := extractErrors output }

/-- A realistic `wrk` report used in the sanity examples below. -/
def sampleWrkOut : List Char :=
  ("Running 5s test @ http://localhost:8080\n" ++
   "  2 threads and 10 connections\n" ++
   "  Thread Stats   Avg      Stdev     Max   +/- Stdev\n" ++
   "    Latency     1.5ms    0.2ms   12ms   95%\n" ++
   "  Latency Distribution\n" ++
   "     50%    1.2ms\n" ++
   "     99%    250us\n" ++
   "  84442 requests in 5.00s, 1.0MB read\n" ++
   "  Socket errors: connect 5, read 93, write 0, timeout 17\n" ++
   "Requests/sec:  16888.40\n").data

/-! ### `wait_for` (compare.py lines 70-79; benchmark.py `wait_for_server`,
lines 46-61, differs only in logging).  One probe is a `curl` invocation with a
2-second `--max-time`; its outcome is an oracle `Nat → ProbeResult`.  An `exc`
outcome models `subprocess.run` raising, which the `try/except` swallows. -/

/-- Outcome of one readiness probe. -/
inductive ProbeResult where
  | ok
  | fail
  | exc
deriving Repr, DecidableEq

/-- Collapse a raised probe into a plain failure (what the `except: pass` does). -/
def deExc (r : ProbeResult) : ProbeResult :=
  match r with
  | ProbeResult.exc => ProbeResult.fail
  | x => x

/-- The loop `for _ in range(timeout)` starting at attempt `i` with `fuel`
iterations left; returns the result and the number of probe attempts issued
(`if r.returncode == 0: return True` is the success test in the source). -/
def waitForFrom (probe : Nat → ProbeResult) : Nat → Nat → Bool × Nat
  | _, 0 => (false, 0)
  | i, fuel + 1 =>
    if probe i = ProbeResult.ok then (true, 1)
    else ((waitForFrom probe (i + 1) fuel).1, (waitForFrom probe (i + 1) fuel).2 + 1)

/-- Embedding of `wait_for(url, timeout)`: result plus number of attempts. -/
def wait_for (probe : Nat → ProbeResult) (timeout : Nat) : Bool × Nat :=
  waitForFrom probe 0 timeout

/-! ### `docker_stop` (compare.py lines 160-162) and the process-teardown arm of
the cleanup phase (compare.py lines 439-444).  The container runtime state is the
list of running container names; `docker rm -f` output is captured and its exit
code discarded, so the embedding is a total function. -/

/-- `docker rm -f name` against a runtime state: removes the container if
present, tolerates absence. -/
def dockerRmF (running : List String) (name : String) : List String :=
  running.filter (fun c => c ≠ name)

/-- Embedding of `docker_stop(container)`: `none` models a falsy handle
(`start` failed and returned `None`), on which the body is skipped. -/
def docker_stop (running : List String) (container : Option String) : List String :=
  match container with
  | none => running
  | some name => dockerRmF running name

/-- A local server process as the cleanup phase sees it: whether it is still
alive, and whether it exits within the 5-second grace window after `terminate`. -/
structure Proc where
  alive : Bool
  respondsToTerm : Bool
deriving Repr, DecidableEq

/-- The per-process cleanup `terminate(); wait(timeout=5) except TimeoutExpired:
kill()`.  Returns the process afterwards and whether `kill` was needed. -/
def procStop (p : Proc) : Proc × Bool :=
  if p.alive && !p.respondsToTerm then ({ p with alive := false }, true)
  else ({ p with alive := false }, false)

/-! ### Scenario matrix and `run_scenarios` (compare.py lines 32-37, 220-229) -/

/-- One row of the `SCENARIOS` table: (name, threads, connections, duration). -/
structure ScenarioSpec where
  name : String
  threads : Nat
  connections : Nat
  duration : Nat
deriving Repr, DecidableEq

/-- The fixed scenario matrix of compare.py. -/
def SCENARIOS : List ScenarioSpec :=
  [{ name := "Light", threads := 1, connections := 10, duration := 5 },
   { name := "Medium", threads := 4, connections := 50, duration := 5 },
   { name := "Heavy", threads := 8, connections := 200, duration := 5 },
   { name := "Stress", threads := 12, connections := 500, duration := 5 }]

/-- The dict `run_scenarios` appends per scenario:
`{"name": ..., "threads": ..., "connections": ..., "duration": ..., **m}`. -/
structure ScenarioResult where
  name : String
  threads : Nat
  connections : Nat
  duration : Nat
  metrics : MetricsRecord
deriving Repr, DecidableEq

/-- The scenario loop from scenario index `i` on, over the remaining specs.
`wrkOut` is the oracle giving the combined stdout+stderr of the `wrk` run for
each scenario index; a `parse_wrk` exception aborts the whole loop. -/
def runScenariosFrom (wrkOut : Nat → List Char) :
    Nat → List ScenarioSpec → Except String (List ScenarioResult)
  | _, [] => Except.ok []
  | i, sc :: rest =>
    match parse_wrk (wrkOut i) with
    | Except.error e => Except.error e
    | Except.ok m =>
      match runScenariosFrom wrkOut (i + 1) rest with
      | Except.error e => Except.error e
      | Except.ok tl =>
        Except.ok
          ({ name := sc.name, threads := sc.threads, connections := sc.connections,
             duration := sc.duration, metrics := m } :: tl)

/-- Embedding of `run_scenarios(url)`. -/
def run_scenarios (wrkOut : Nat → List Char) : Except String (List ScenarioResult) :=
  runScenariosFrom wrkOut 0 SCENARIOS

/-- The per-target results a run of all scenarios against a silent server
produces (every `wrk` output empty, all metrics defaulted). -/
def zeroScenarioResults : List ScenarioResult :=
  SCENARIOS.map (fun sc =>
    { name := sc.name, threads := sc.threads, connections := sc.connections,
      duration := sc.duration, metrics := zeroMetrics })

/-! ### `pct_diff` and the head-to-head row (compare.py lines 233-235, 345-353) -/

/-- Embedding of `pct_diff(a, b)`. -/
def pct_diff (a b : ℚ) : ℚ :=
  if b = 0 then 0 else (a - b) / b * 100

/-- One row of the "Head-to-Head" table. -/
structure HeadToHeadRow where
  scenario : String
  rpsDiff : ℚ
  latDiff : ℚ
  p99Diff : ℚ
  winner : String
deriving Repr, DecidableEq

/-- The computation of one head-to-head row in `generate_report` (lines 345-353):
percent differences of rps / average latency / p99, and the throughput winner
(`"MetaSSR" if m["rps"] >= o["rps"] else <other>`, so ties go to the reference). -/
def headToHeadRow (sname othName : String) (m o : MetricsRecord) : HeadToHeadRow :=
  { scenario := sname,
    rpsDiff := pct_diff m.rps o.rps,
    latDiff := pct_diff m.latency_ms o.latency_ms,
    p99Diff := pct_diff m.p99_ms o.p99_ms,
    winner := if o.rps ≤ m.rps then ("MetaSSR") else othName }

/-! ### The machine-readable snapshot `report.json` (compare.py lines 359-364) -/

/-- JSON values, as far as the snapshot needs them. -/
inductive JValue where
  | str (s : String)
  | num (q : ℚ)
  | nat (n : Nat)
  | arr (l : List JValue)
  | obj (l : List (String × JValue))

/-- JSON encoding of one flattened scenario-result dict. -/
def scenarioResultJson (r : ScenarioResult) : JValue :=
  JValue.obj
    [("name", JValue.str r.name), ("threads", JValue.nat r.threads),
     ("connections", JValue.nat r.connections), ("duration", JValue.nat r.duration),
     ("rps", JValue.num r.metrics.rps), ("latency", JValue.str r.metrics.latency),
     ("latency_ms", JValue.num r.metrics.latency_ms), ("p99", JValue.str r.metrics.p99),
     ("p99_ms", JValue.num r.metrics.p99_ms), ("requests", JValue.nat r.metrics.requests),
     ("errors", JValue.nat r.metrics.errors)]

/-- The top-level object written to `report.json` (compare.py lines 359-364):
`{"timestamp": ..., "system": ..., "mode": ..., "frameworks": {key: [...]}}`. -/
def report_json (timestamp : String) (system_info : JValue) (use_docker : Bool)
    (all_results : List (String × List ScenarioResult)) : List (String × JValue) :=
  [("timestamp", JValue.str timestamp),
   ("system", system_info),
   ("mode", JValue.str (if use_docker then ("docker") else ("local"))),
   ("frameworks",
     JValue.obj (all_results.map (fun p =>
       (p.1, JValue.arr (p.2.map scenarioResultJson)))))]

/-! ### The driver loop of `main` (compare.py lines 371-448)

The loop body is embedded as a step function over a driver state, indexed by an
environment describing, per configured framework, the outcome of each external
phase: whether the image build / local build succeeds, whether the server start
succeeds (a failing `subprocess.Popen` raises; a failing `docker run` returns
`None` and is skipped), whether the readiness wait succeeds, what `wrk` prints
per scenario, and whether an exception is raised during warm-up/benchmarking.
`raised` models an exception escaping the `try:` body; the `finally:` cleanup
(lines 435-444) runs in every case and is `cleanupEvs`. -/

/-- One framework entry as main sees it: configuration plus environment outcomes. -/
structure FwEnv where
  key : String
  image : String
  alreadyRunning : Bool
  buildOk : Bool
  startOk : Bool
  readyOk : Bool
  wrkOut : Nat → List Char
  benchRaises : Bool

/-- A lifecycle handle: a container name or a started local process (identified
here by its framework key). -/
inductive Handle where
  | container (name : String)
  | process (key : String)
deriving Repr, DecidableEq

/-- Observable lifecycle events of one run. -/
inductive Ev where
  | created (h : Handle)
  | benched (key : String)
  | released (h : Handle)
deriving Repr, DecidableEq

/-- Whether an event is a teardown action. -/
def Ev.isTeardown : Ev → Bool
  | Ev.released _ => true
  | _ => false

/-- The mutable state of `main`: the `containers` and `processes` registries, the
`all_results` dict, the event trace, and whether an exception is in flight. -/
structure DriverState where
  containers : List String
  processes : List String
  results : List (String × List ScenarioResult)
  evs : List Ev
  raised : Bool
deriving Repr, DecidableEq

/-- The state at the top of the `try:` block. -/
def initState : DriverState :=
  { containers := [], processes := [], results := [], evs := [], raised := false }

/-- `container = fw["docker_image"] + "-run"` (compare.py line 145). -/
def contName (fw : FwEnv) : String :=
  fw.image ++ "-run"

/-- Python-dict assignment `all_results[fw_key] = ...` on an insertion-ordered
association list: overwrite in place if the key exists, else append. -/
def dictInsert (l : List (String × List ScenarioResult)) (k : String)
    (v : List ScenarioResult) : List (String × List ScenarioResult) :=
  if l.any (fun p => p.1 = k) then
    l.map (fun p => if p.1 = k then (k, v) else p)
  else l ++ [(k, v)]

/-- Warm-up plus benchmarking of one ready target (compare.py lines 426-433).
`benchRaises` models any exception there; a `parse_wrk` `ValueError` inside
`run_scenarios` also propagates. -/
def benchPhase (s : DriverState) (fw : FwEnv) : DriverState :=
  if fw.benchRaises then { s with raised := true }
  else
    match run_scenarios fw.wrkOut with
    | Except.error _ => { s with raised := true }
    | Except.ok rs =>
      { s with results := dictInsert s.results fw.key rs,
               evs := s.evs ++ [Ev.benched fw.key] }

/-- The readiness wait (line 422): on timeout the target is skipped (`continue`),
leaving any registered handle in place; on success benchmarking follows. -/
def readyAndBench (s : DriverState) (fw : FwEnv) : DriverState :=
  if fw.readyOk then benchPhase s fw else s

/-- One iteration of `for fw_key in args.frameworks` (compare.py lines 394-433).
A state with an exception in flight is passed through untouched (the loop body
is never reached again once the `try:` block is being unwound). -/
def stepFw (docker : Bool) (s : DriverState) (fw : FwEnv) : DriverState :=
  if s.raised then s
  else if docker then
    if !fw.buildOk then s
    else if !fw.startOk then s
    else
      readyAndBench
        { s with containers := s.containers ++ [contName fw],
                 evs := s.evs ++ [Ev.created (Handle.container (contName fw))] } fw
  else
    if fw.alreadyRunning then readyAndBench s fw
    else if !fw.buildOk then s
    else if !fw.startOk then { s with raised := true }
    else
      readyAndBench
        { s with processes := s.processes ++ [fw.key],
                 evs := s.evs ++ [Ev.created (Handle.process fw.key)] } fw

/-- The whole `try:` body: the loop over the configured frameworks. -/
def mainBody (docker : Bool) (fws : List FwEnv) : DriverState :=
  fws.foldl (stepFw docker) initState

/-- The `finally:` cleanup (compare.py lines 435-444): `docker_stop` for every
registered container, then terminate/wait/kill for every registered process. -/
def cleanupEvs (s : DriverState) : List Ev :=
  s.containers.map (fun n => Ev.released (Handle.container n)) ++
  s.processes.map (fun k => Ev.released (Handle.process k))

/-- The full run: `try:` body, then the unconditional cleanup phase. -/
def runMain (docker : Bool) (fws : List FwEnv) : DriverState :=
  { mainBody docker fws with
      evs := (mainBody docker fws).evs ++ cleanupEvs (mainBody docker fws) }

/-- Whether build, start and readiness all succeeded for this target, i.e. none
of the `continue`/raise paths that skip benchmarking was taken. -/
def phasesOk (docker : Bool) (fw : FwEnv) : Bool :=
  if docker then fw.buildOk && fw.startOk && fw.readyOk
  else fw.readyOk && (fw.alreadyRunning || (fw.buildOk && fw.startOk))

/-- The property C2 asserts of a trace: whenever a handle is created, no other
handle is still live (every started target torn down before the next starts). -/
def exclusiveLive : List Ev → List Handle → Bool
  | [], _ => true
  | Ev.created h :: rest, live => live.isEmpty && exclusiveLive rest (h :: live)
  | Ev.released h :: rest, live => exclusiveLive rest (live.erase h)
  | _ :: rest, live => exclusiveLive rest live

/-- A fully successful dockerized MetaSSR target (concrete test environment). -/
def fwEnvA : FwEnv :=
  { key := "metassr", image := "metassr-bench", alreadyRunning := false,
    buildOk := true, startOk := true, readyOk := true,
    wrkOut := fun _ => [], benchRaises := false }

/-- A fully successful dockerized Next.js target (concrete test environment). -/
def fwEnvB : FwEnv :=
  { key := "nextjs", image := "nextjs-bench", alreadyRunning := false,
    buildOk := true, startOk := true, readyOk := true,
    wrkOut := fun _ => [], benchRaises := false }

/-! ### Remaining concrete data used by the theorems below -/

/-- The per-handle tally the cleanup phase works from: how many times a handle
name sits in the corresponding registry. -/
def handleTally (s : DriverState) : Handle → Nat
  | Handle.container n => s.containers.count n
  | Handle.process k => s.processes.count k

/-- Invariant of the driver loop: every created handle is registered for cleanup
exactly as many times as it was created. -/
def tallyInv (s : DriverState) : Prop :=
  ∀ h : Handle, s.evs.count (Ev.created h) = handleTally s h

/-- Invariant of the driver loop: the `try:` body performs no teardown. -/
def bodyClean (s : DriverState) : Prop :=
  s.evs.all (fun e => !e.isTeardown) = true

/-- Reference metrics of the C5 end-to-end example (rps=1000, p99="5ms"). -/
def lightRef : MetricsRecord :=
  { rps := 1000, latency := "0ms", latency_ms := 0, p99 := "5ms", p99_ms := 5,
    requests := 0, errors := 0 }

/-- Competitor metrics of the C5 end-to-end example (rps=800, p99="8ms"). -/
def lightComp : MetricsRecord :=
  { rps := 800, latency := "0ms", latency_ms := 0, p99 := "8ms", p99_ms := 8,
    requests := 0, errors := 0 }

/-- A concrete environment summary value for the snapshot examples. -/
def sampleSystemInfo : JValue :=
  JValue.obj [("os", JValue.str ("Linux")), ("cpu_cores", JValue.nat 8)]

/-- A probe oracle whose first success is attempt index 2 and which raises on
every earlier attempt. -/
def c8ProbeSeq : Nat → ProbeResult :=
  fun i => if i = 2 then ProbeResult.ok else ProbeResult.exc

/-- A `wrk` socket-error line with the four labeled counts as digit strings. -/
def socketLine (a b c d : List Char) : List Char :=
  ("Socket errors: connect ").data ++ a ++ (", read ").data ++ b ++
    (", write ").data ++ c ++ (", timeout ").data ++ d

/-! ## Sanity checks of the embedding on concrete inputs -/

example : parse_latency_ms (("250us").data) = some (1 / 4) := by with_unfolding_all rfl
example : parse_latency_ms (("1.5s").data) = some 1500 := by with_unfolding_all rfl
example : parse_latency_ms (("12ms").data) = some 12 := by with_unfolding_all rfl
example : parse_latency_ms (("7rot").data) = some 7 := by with_unfolding_all rfl
example : parse_latency_ms [] = some 0 := by decide
example : parse_latency_ms (("..ms").data) = none := by decide

example : parse_wrk sampleWrkOut =
    Except.ok
      { rps := 168884 / 10, latency := "1.5ms", latency_ms := 3 / 2,
        p99 := "250us", p99_ms := 1 / 4, requests := 84442, errors := 5 } := by
  with_unfolding_all rfl

example : parse_wrk [] = Except.ok zeroMetrics := by with_unfolding_all rfl

example : run_scenarios (fun _ => []) = Except.ok zeroScenarioResults := by
  with_unfolding_all rfl

example :
    (runMain true [fwEnvA, fwEnvB]).evs =
      [Ev.created (Handle.container ("metassr-bench-run")), Ev.benched ("metassr"),
       Ev.created (Handle.container ("nextjs-bench-run")), Ev.benched ("nextjs"),
       Ev.released (Handle.container ("metassr-bench-run")),
       Ev.released (Handle.container ("nextjs-bench-run"))] := by
  with_unfolding_all rfl

example :
    (runMain true [fwEnvA, fwEnvB]).results.map Prod.fst = ["metassr", "nextjs"] := by
  with_unfolding_all rfl

/-! ## List-level helper lemmas -/

theorem takeWhile_append_stops (p : Char → Bool) (l1 : List Char) (c : Char) (l2 : List Char)
    (h1 : ∀ x ∈ l1, p x = true) (h2 : p c = false) :
    (l1 ++ c :: l2).takeWhile p = l1 := by
  induction l1 with
  | nil => simp [List.takeWhile_cons, h2]
  | cons a as ih =>
    have ha : p a = true := h1 a (by simp)
    simp [List.takeWhile_cons, ha, ih (fun x hx => h1 x (by simp [hx]))]

theorem takeWhile_of_all (p : Char → Bool) (l : List Char) (h : ∀ x ∈ l, p x = true) :
    l.takeWhile p = l := by
  induction l with
  | nil => rfl
  | cons a as ih =>
    have ha : p a = true := h a (by simp)
    simp [List.takeWhile_cons, ha, ih (fun x hx => h x (by simp [hx]))]

theorem get?_append_len (l1 l2 : List Char) (c : Char) :
    (l1 ++ c :: l2).get? l1.length = some c := by
  induction l1 with
  | nil => rfl
  | cons a as ih => simpa using ih

theorem stripLit_append (l t : List Char) : stripLit l (l ++ t) = some t := by
  induction l with
  | nil => rfl
  | cons c cs ih => simp [stripLit, ih]

theorem reSearch_head_some {α : Type} (m : List Char → Option α) (s : List Char) (r : α)
    (h : m s = some r) : reSearch m s = some r := by
  cases s with
  | nil => simpa [reSearch] using h
  | cons c cs => simp [reSearch, h]

theorem scanDigitsLine_skip (pre t : List Char)
    (h : ∀ ch ∈ pre, ch.isDigit = false ∧ ¬ ch = '\n') :
    scanDigitsLine (pre ++ t) = scanDigitsLine t := by
  induction pre with
  | nil => rfl
  | cons a as ih =>
    have ha := h a (by simp)
    simp [scanDigitsLine, ha.1, ha.2, ih (fun x hx => h x (by simp [hx]))]

/-! ## C3 -/

/-- C3 (code bug): the claim says the extractor returns a record without raising
for every input string, malformed ones included.  But on the input
`"Requests/sec: ."` the pattern `Requests/sec:\s+([\d.]+)` captures `"."`, and
`float(".")` raises `ValueError`, so `parse_wrk` propagates an exception instead
of returning a record. -/
theorem c3_parse_wrk_raises_on_malformed_input :
    parse_wrk (("Requests/sec: .").data) = Except.error ("ValueError") := by
  with_unfolding_all rfl

/-! ## C5 -/

/-- C5: each head-to-head percent difference equals
`(reference - competitor) / competitor * 100` when the competitor value is
nonzero and `0` when it is zero; the winner is the target with the higher
requests-per-second, ties to the reference ("MetaSSR"); and on the concrete
end-to-end example (reference rps=1000, p99=5ms vs competitor rps=800, p99=8ms)
the row shows +25% rps, -37.5% p99, winner MetaSSR. -/
theorem c5_pct_diff_and_winner (a b : ℚ) (m o : MetricsRecord) (sname othName : String) :
    (b ≠ 0 → pct_diff a b = (a - b) / b * 100) ∧
    (b = 0 → pct_diff a b = 0) ∧
    (o.rps ≤ m.rps → (headToHeadRow sname othName m o).winner = "MetaSSR") ∧
    (m.rps < o.rps → (headToHeadRow sname othName m o).winner = othName) ∧
    headToHeadRow ("Light") ("Next.js") lightRef lightComp =
      { scenario := "Light", rpsDiff := 25, latDiff := 0, p99Diff := -(75 / 2),
        winner := "MetaSSR" } := by
  refine ⟨fun h => ?_, fun h => ?_, fun h => ?_, fun h => ?_, ?_⟩
  · simp [pct_diff, h]
  · simp [pct_diff, h]
  · simp [headToHeadRow, h]
  · simp [headToHeadRow, not_le.mpr h]
  · simp only [headToHeadRow, lightRef, lightComp, HeadToHeadRow.mk.injEq]
    norm_num [pct_diff]

/-- Closed instantiation of `c5_pct_diff_and_winner` discharging its hypotheses. -/
theorem c5_witness :
    pct_diff 1000 800 = 25 ∧ pct_diff 5 0 = 0 := by
  constructor
  · rw [(c5_pct_diff_and_winner 1000 800 lightRef lightComp ("Light") ("Next.js")).1
      (by norm_num)]
    norm_num
  · exact (c5_pct_diff_and_winner 5 0 lightRef lightComp ("Light") ("Next.js")).2.1 rfl

/-! ## C6 -/

/-- C6 counterexample: the snapshot object written to `report.json` does not
have exactly the fields `{timestamp, environment, targets}` — its key list is
`["timestamp", "system", "mode", "frameworks"]`, which in particular contains
the extra key `"mode"` and contains neither `"environment"` nor `"targets"`. -/
theorem c6_counterexample :
    (report_json ("2026-01-01T00:00:00") sampleSystemInfo true
        [("metassr", zeroScenarioResults)]).map Prod.fst =
      ["timestamp", "system", "mode", "frameworks"] ∧
    ("environment" ∈ (report_json ("2026-01-01T00:00:00") sampleSystemInfo true
        [("metassr", zeroScenarioResults)]).map Prod.fst) = False ∧
    ("targets" ∈ (report_json ("2026-01-01T00:00:00") sampleSystemInfo true
        [("metassr", zeroScenarioResults)]).map Prod.fst) = False := by
  refine ⟨rfl, ?_, ?_⟩ <;> simp [report_json]

/-- C6 amended: the snapshot is a nested record with exactly the four fields
`{timestamp, system, mode, frameworks}` (the environment summary under
`"system"`, the deployment mode under `"mode"`), and `"frameworks"` maps each
present target key to its ordered list of scenario results. -/
theorem c6_amended (ts : String) (sys : JValue) (docker : Bool)
    (res : List (String × List ScenarioResult)) :
    (report_json ts sys docker res).map Prod.fst =
      ["timestamp", "system", "mode", "frameworks"] ∧
    (report_json ts sys docker res).getLast? =
      some ("frameworks",
        JValue.obj (res.map (fun p => (p.1, JValue.arr (p.2.map scenarioResultJson))))) :=
  ⟨rfl, rfl⟩

/-! ## C9 -/

/-- C9: `stop` is idempotent and best-effort — stopping twice equals stopping
once, stopping a never-started (falsy) handle is a no-op, a stopped container
is no longer running, and the process arm always leaves the process dead, with
a second stop being a plain no-op (`terminate` on a dead child, no kill). -/
theorem c9_stop_idempotent_best_effort (running : List String) (c : Option String)
    (n : String) (p : Proc) :
    docker_stop (docker_stop running c) c = docker_stop running c ∧
    docker_stop running none = running ∧
    (docker_stop running (some n)).contains n = false ∧
    (procStop p).1.alive = false ∧
    procStop (procStop p).1 = ((procStop p).1, false) := by
  refine ⟨?_, rfl, ?_, ?_, ?_⟩
  · cases c with
    | none => rfl
    | some name =>
      simp [docker_stop, dockerRmF, List.filter_filter]
  · simp [docker_stop, dockerRmF, List.elem_eq_mem, List.mem_filter]
  · cases p with
    | mk alive resp => cases alive <;> cases resp <;> decide
  · cases p with
    | mk alive resp => cases alive <;> cases resp <;> decide

/-! ## C8 -/

theorem waitForFrom_all_fail (probe : Nat → ProbeResult) (fuel : Nat) :
    ∀ i : Nat, (∀ j, j < fuel → probe (i + j) ≠ ProbeResult.ok) →
      waitForFrom probe i fuel = (false, fuel) := by
  induction fuel with
  | zero => intro i _; rfl
  | succ f ih =>
    intro i h
    have h0 : probe i ≠ ProbeResult.ok := by simpa using h 0 (Nat.succ_pos f)
    have hrec : waitForFrom probe (i + 1) f = (false, f) := by
      refine ih (i + 1) (fun j hj => ?_)
      have := h (j + 1) (Nat.succ_lt_succ hj)
      have harith : i + (j + 1) = i + 1 + j := by omega
      rwa [harith] at this
    simp [waitForFrom, h0, hrec]

theorem waitForFrom_first_ok (probe : Nat → ProbeResult) (j : Nat) :
    ∀ i fuel : Nat, j < fuel → probe (i + j) = ProbeResult.ok →
      (∀ l, l < j → probe (i + l) ≠ ProbeResult.ok) →
      waitForFrom probe i fuel = (true, j + 1) := by
  induction j with
  | zero =>
    intro i fuel hj hok _
    cases fuel with
    | zero => omega
    | succ f => simp [waitForFrom, show probe i = ProbeResult.ok by simpa using hok]
  | succ j ih =>
    intro i fuel hj hok hmin
    cases fuel with
    | zero => omega
    | succ f =>
      have h0 : probe i ≠ ProbeResult.ok := by simpa using hmin 0 (Nat.succ_pos j)
      have hrec : waitForFrom probe (i + 1) f = (true, j + 1) := by
        refine ih (i + 1) f (by omega) ?_ (fun l hl => ?_)
        · have harith : i + 1 + j = i + (j + 1) := by omega
          rwa [harith]
        · have := hmin (l + 1) (Nat.succ_lt_succ hl)
          have harith : i + (l + 1) = i + 1 + l := by omega
          rwa [harith] at this
      simp [waitForFrom, h0, hrec]

theorem waitForFrom_deExc (probe : Nat → ProbeResult) (fuel : Nat) :
    ∀ i : Nat, waitForFrom (fun n => deExc (probe n)) i fuel = waitForFrom probe i fuel := by
  induction fuel with
  | zero => intro i; rfl
  | succ f ih =>
    intro i
    have hcond : (deExc (probe i) = ProbeResult.ok) = (probe i = ProbeResult.ok) := by
      cases probe i <;> simp [deExc]
    simp [waitForFrom, hcond, ih]

/-- C8: the readiness gate returns true at the first successful probe (having
made exactly `j+1` attempts when the first success is attempt `j`); when no
probe succeeds it makes exactly `timeout` attempts and returns false; and a
probe that raises is treated identically to a plain failed probe — the
exception never propagates. -/
theorem c8_readiness_gate (probe : Nat → ProbeResult) (timeout j : Nat) :
    (j < timeout → probe j = ProbeResult.ok →
      (∀ i, i < j → probe i ≠ ProbeResult.ok) →
      wait_for probe timeout = (true, j + 1)) ∧
    ((∀ i, i < timeout → probe i ≠ ProbeResult.ok) →
      wait_for probe timeout = (false, timeout)) ∧
    wait_for (fun n => deExc (probe n)) timeout = wait_for probe timeout := by
  refine ⟨fun h1 h2 h3 => ?_, fun h => ?_, waitForFrom_deExc probe timeout 0⟩
  · exact waitForFrom_first_ok probe j 0 timeout h1 (by simpa using h2)
      (fun l hl => by simpa using h3 l hl)
  · exact waitForFrom_all_fail probe timeout 0 (by simpa using h)

/-- Closed instantiation of `c8_readiness_gate` discharging its hypotheses:
first success at attempt 2 (after two swallowed raises) gives `(true, 3)`;
all-failing probes for 4 seconds give `(false, 4)`. -/
theorem c8_witness :
    wait_for c8ProbeSeq 5 = (true, 3) ∧
    wait_for (fun _ => ProbeResult.fail) 4 = (false, 4) := by
  constructor
  · exact (c8_readiness_gate c8ProbeSeq 5 2).1 (by decide) (by decide) (by decide)
  · exact (c8_readiness_gate (fun _ => ProbeResult.fail) 4 0).2.1 (fun i _ => by decide)

/-! ## C2 (counterexample part) -/

/-- C2 counterexample: in a fully successful two-target docker run, the second
container is created while the first is still live — the trace creates and
benchmarks both targets and only then releases them in the cleanup phase, so
"each started target is fully torn down before the next begins" is false. -/
theorem c2_counterexample :
    (runMain true [fwEnvA, fwEnvB]).evs =
      [Ev.created (Handle.container ("metassr-bench-run")), Ev.benched ("metassr"),
       Ev.created (Handle.container ("nextjs-bench-run")), Ev.benched ("nextjs"),
       Ev.released (Handle.container ("metassr-bench-run")),
       Ev.released (Handle.container ("nextjs-bench-run"))] ∧
    exclusiveLive (runMain true [fwEnvA, fwEnvB]).evs [] = false := by
  constructor
  · with_unfolding_all rfl
  · with_unfolding_all rfl

/-! ## Driver-loop invariants (shared by C1, C2 amended, C4) -/

theorem count_released_containers (l : List String) (n : String) :
    (l.map (fun m => Ev.released (Handle.container m))).count
      (Ev.released (Handle.container n)) = l.count n := by
  induction l with
  | nil => rfl
  | cons a as ih =>
    by_cases ha : a = n
    · simp [List.count_cons, ha, ih]
    · simp [List.count_cons, ha, ih]

theorem count_released_processes (l : List String) (k : String) :
    (l.map (fun m => Ev.released (Handle.process m))).count
      (Ev.released (Handle.process k)) = l.count k := by
  induction l with
  | nil => rfl
  | cons a as ih =>
    by_cases ha : a = k
    · simp [List.count_cons, ha, ih]
    · simp [List.count_cons, ha, ih]

theorem count_released_mixed_container (l : List String) (n : String) :
    (l.map (fun m => Ev.released (Handle.process m))).count
      (Ev.released (Handle.container n)) = 0 := by
  rw [List.count_eq_zero]
  simp

theorem count_released_mixed_process (l : List String) (k : String) :
    (l.map (fun m => Ev.released (Handle.container m))).count
      (Ev.released (Handle.process k)) = 0 := by
  rw [List.count_eq_zero]
  simp

theorem cleanup_count (s : DriverState) (h : Handle) :
    (cleanupEvs s).count (Ev.released h) = handleTally s h := by
  cases h with
  | container n =>
    simp [cleanupEvs, List.count_append, count_released_containers,
      count_released_mixed_container, handleTally]
  | process k =>
    simp [cleanupEvs, List.count_append, count_released_processes,
      count_released_mixed_process, handleTally]

theorem count_created_benched (evs : List Ev) (k : String) (h : Handle) :
    (evs ++ [Ev.benched k]).count (Ev.created h) = evs.count (Ev.created h) := by
  simp [List.count_append, List.count_cons]

theorem tallyInv_benchPhase (s : DriverState) (fw : FwEnv) (hs : tallyInv s) :
    tallyInv (benchPhase s fw) := by
  unfold benchPhase
  split
  · exact hs
  · cases hrun : run_scenarios fw.wrkOut with
    | error e => exact hs
    | ok rs =>
      intro h
      simpa [handleTally, count_created_benched] using hs h

theorem tallyInv_readyAndBench (s : DriverState) (fw : FwEnv) (hs : tallyInv s) :
    tallyInv (readyAndBench s fw) := by
  unfold readyAndBench
  split
  · exact tallyInv_benchPhase s fw hs
  · exact hs

theorem tallyInv_stepFw (docker : Bool) (s : DriverState) (fw : FwEnv)
    (hs : tallyInv s) : tallyInv (stepFw docker s fw) := by
  unfold stepFw
  split
  · exact hs
  · split
    · split
      · exact hs
      · split
        · exact hs
        · refine tallyInv_readyAndBench _ fw (fun h => ?_)
          cases h with
          | container n =>
            have base := hs (Handle.container n)
            simp only [handleTally] at base
            by_cases hn : contName fw = n <;>
              · simp [handleTally, List.count_append, List.count_cons, hn]
                omega
          | process k =>
            have base := hs (Handle.process k)
            simp only [handleTally] at base
            simp [handleTally, List.count_append, List.count_cons]
            omega
    · split
      · exact tallyInv_readyAndBench s fw hs
      · split
        · exact hs
        · split
          · exact hs
          · refine tallyInv_readyAndBench _ fw (fun h => ?_)
            cases h with
            | container n =>
              have base := hs (Handle.container n)
              simp only [handleTally] at base
              simp [handleTally, List.count_append, List.count_cons]
              omega
            | process k =>
              have base := hs (Handle.process k)
              simp only [handleTally] at base
              by_cases hk : fw.key = k <;>
                · simp [handleTally, List.count_append, List.count_cons, hk]
                  omega

theorem tallyInv_foldl (docker : Bool) (fws : List FwEnv) :
    ∀ s : DriverState, tallyInv s → tallyInv (fws.foldl (stepFw docker) s) := by
  induction fws with
  | nil => exact fun s hs => hs
  | cons fw rest ih =>
    exact fun s hs => ih (stepFw docker s fw) (tallyInv_stepFw docker s fw hs)

/-! ## C1 -/

/-- C1: for every run environment (any mode, any per-target outcomes — success,
failed phases, or an exception escaping the loop), the cleanup phase releases
every handle that was actually created exactly as many times as it was created
(in particular at least once), and the run's trace is the loop trace followed by
the cleanup trace, i.e. every release happens before the run ends. -/
theorem c1_cleanup_releases_every_created_handle (docker : Bool) (fws : List FwEnv)
    (h : Handle) :
    (cleanupEvs (mainBody docker fws)).count (Ev.released h) =
      (mainBody docker fws).evs.count (Ev.created h) ∧
    (runMain docker fws).evs =
      (mainBody docker fws).evs ++ cleanupEvs (mainBody docker fws) := by
  refine ⟨?_, rfl⟩
  rw [cleanup_count]
  exact (tallyInv_foldl docker fws initState (fun hh => by cases hh <;> rfl) h).symm

theorem bodyClean_benchPhase (s : DriverState) (fw : FwEnv) (hs : bodyClean s) :
    bodyClean (benchPhase s fw) := by
  unfold benchPhase
  split
  · exact hs
  · cases hrun : run_scenarios fw.wrkOut with
    | error e => exact hs
    | ok rs => simpa [bodyClean, List.all_append, Ev.isTeardown] using hs

theorem bodyClean_readyAndBench (s : DriverState) (fw : FwEnv) (hs : bodyClean s) :
    bodyClean (readyAndBench s fw) := by
  unfold readyAndBench
  split
  · exact bodyClean_benchPhase s fw hs
  · exact hs

theorem bodyClean_stepFw (docker : Bool) (s : DriverState) (fw : FwEnv)
    (hs : bodyClean s) : bodyClean (stepFw docker s fw) := by
  unfold stepFw
  split
  · exact hs
  · split
    · split
      · exact hs
      · split
        · exact hs
        · refine bodyClean_readyAndBench _ fw ?_
          simpa [bodyClean, List.all_append, Ev.isTeardown] using hs
    · split
      · exact bodyClean_readyAndBench s fw hs
      · split
        · exact hs
        · split
          · exact hs
          · refine bodyClean_readyAndBench _ fw ?_
            simpa [bodyClean, List.all_append, Ev.isTeardown] using hs

theorem bodyClean_foldl (docker : Bool) (fws : List FwEnv) :
    ∀ s : DriverState, bodyClean s → bodyClean (fws.foldl (stepFw docker) s) := by
  induction fws with
  | nil => exact fun s hs => hs
  | cons fw rest ih =>
    exact fun s hs => ih (stepFw docker s fw) (bodyClean_stepFw docker s fw hs)

/-! ## C2 (amended part) -/

/-- C2 amended: targets are processed strictly one at a time by a single
sequential loop, but a started target is not torn down before the next target
begins — no teardown happens anywhere in the loop body; all releases happen in
the run-ending cleanup phase, after every target has been processed. -/
theorem c2_amended_teardown_only_in_cleanup (docker : Bool) (fws : List FwEnv) :
    (runMain docker fws).evs =
      (mainBody docker fws).evs ++ cleanupEvs (mainBody docker fws) ∧
    (mainBody docker fws).evs.all (fun e => !e.isTeardown) = true ∧
    (cleanupEvs (mainBody docker fws)).all Ev.isTeardown = true := by
  refine ⟨rfl, bodyClean_foldl docker fws initState rfl, ?_⟩
  simp [cleanupEvs, List.all_append, List.all_map, Function.comp, Ev.isTeardown]

/-! ## C4 -/

theorem mem_dictInsert (l : List (String × List ScenarioResult)) (k : String)
    (v : List ScenarioResult) (k' : String) (v' : List ScenarioResult)
    (h : (k', v') ∈ dictInsert l k v) :
    (k' = k ∧ v' = v) ∨ (k', v') ∈ l := by
  unfold dictInsert at h
  split at h
  · obtain ⟨p, hp, he⟩ := List.mem_map.mp h
    by_cases hpk : p.1 = k
    · rw [if_pos hpk] at he
      exact Or.inl ⟨(congrArg Prod.fst he).symm, (congrArg Prod.snd he).symm⟩
    · rw [if_neg hpk] at he
      exact Or.inr (he ▸ hp)
  · rcases List.mem_append.mp h with hmem | hmem
    · exact Or.inr hmem
    · rcases List.mem_singleton.mp hmem with heq
      exact Or.inl ⟨congrArg Prod.fst heq, congrArg Prod.snd heq⟩

theorem results_benchPhase (s : DriverState) (fw : FwEnv) (k : String)
    (rs : List ScenarioResult) (h : (k, rs) ∈ (benchPhase s fw).results) :
    (k, rs) ∈ s.results ∨
      (k = fw.key ∧ run_scenarios fw.wrkOut = Except.ok rs) := by
  unfold benchPhase at h
  split at h
  · exact Or.inl h
  · cases hrun : run_scenarios fw.wrkOut with
    | error e => rw [hrun] at h; exact Or.inl h
    | ok rs' =>
      rw [hrun] at h
      simp only at h
      rcases mem_dictInsert s.results fw.key rs' k rs h with ⟨hk, hv⟩ | hmem
      · subst hv
        exact Or.inr ⟨hk, rfl⟩
      · exact Or.inl hmem

theorem results_readyAndBench (s : DriverState) (fw : FwEnv) (k : String)
    (rs : List ScenarioResult) (h : (k, rs) ∈ (readyAndBench s fw).results) :
    (k, rs) ∈ s.results ∨
      (k = fw.key ∧ fw.readyOk = true ∧ run_scenarios fw.wrkOut = Except.ok rs) := by
  unfold readyAndBench at h
  split at h
  · rcases results_benchPhase s fw k rs h with hmem | ⟨hk, hrun⟩
    · exact Or.inl hmem
    · rename_i hready
      exact Or.inr ⟨hk, hready, hrun⟩
  · exact Or.inl h

theorem results_stepFw (docker : Bool) (s : DriverState) (fw : FwEnv) (k : String)
    (rs : List ScenarioResult) (h : (k, rs) ∈ (stepFw docker s fw).results) :
    (k, rs) ∈ s.results ∨
      (k = fw.key ∧ phasesOk docker fw = true ∧
        run_scenarios fw.wrkOut = Except.ok rs) := by
  unfold stepFw at h
  split at h
  · exact Or.inl h
  · split at h
    · rename_i hdocker
      split at h
      · exact Or.inl h
      · split at h
        · exact Or.inl h
        · rename_i hbuild hstart
          rcases results_readyAndBench _ fw k rs h with hmem | ⟨hk, hready, hrun⟩
          · exact Or.inl hmem
          · refine Or.inr ⟨hk, ?_, hrun⟩
            simp only [Bool.not_eq_true'] at hbuild hstart
            simp [phasesOk, hdocker, hbuild, hstart, hready]
    · rename_i hdocker
      split at h
      · rename_i halready
        rcases results_readyAndBench s fw k rs h with hmem | ⟨hk, hready, hrun⟩
        · exact Or.inl hmem
        · refine Or.inr ⟨hk, ?_, hrun⟩
          simp [phasesOk, hdocker, halready, hready]
      · split at h
        · exact Or.inl h
        · split at h
          · exact Or.inl h
          · rename_i halready hbuild hstart
            rcases results_readyAndBench _ fw k rs h with hmem | ⟨hk, hready, hrun⟩
            · exact Or.inl hmem
            · refine Or.inr ⟨hk, ?_, hrun⟩
              simp only [Bool.not_eq_true'] at hbuild hstart
              simp [phasesOk, hdocker, hbuild, hstart, hready]

theorem results_foldl (docker : Bool) (fws : List FwEnv) :
    ∀ (s : DriverState) (k : String) (rs : List ScenarioResult),
      (k, rs) ∈ (fws.foldl (stepFw docker) s).results →
      (k, rs) ∈ s.results ∨
        ∃ fw, fw ∈ fws ∧ k = fw.key ∧ phasesOk docker fw = true ∧
          run_scenarios fw.wrkOut = Except.ok rs := by
  induction fws with
  | nil => exact fun s k rs h => Or.inl h
  | cons fw rest ih =>
    intro s k rs h
    rcases ih (stepFw docker s fw) k rs h with hmem | ⟨fw', hfw', hk, hok, hrun⟩
    · rcases results_stepFw docker s fw k rs hmem with hmem' | ⟨hk, hok, hrun⟩
      · exact Or.inl hmem'
      · exact Or.inr ⟨fw, by simp, hk, hok, hrun⟩
    · exact Or.inr ⟨fw', by simp [hfw'], hk, hok, hrun⟩

theorem runScenariosFrom_ok_shape (wrkOut : Nat → List Char) (scs : List ScenarioSpec) :
    ∀ (i : Nat) (rs : List ScenarioResult),
      runScenariosFrom wrkOut i scs = Except.ok rs →
      rs.length = scs.length ∧
        ∀ (idx : Nat) (h1 : idx < rs.length) (h2 : idx < scs.length),
          (rs.get ⟨idx, h1⟩).name = (scs.get ⟨idx, h2⟩).name := by
  induction scs with
  | nil =>
    intro i rs h
    simp only [runScenariosFrom] at h
    cases h
    exact ⟨rfl, fun idx h1 h2 => absurd h1 (by simp)⟩
  | cons sc rest ih =>
    intro i rs h
    simp only [runScenariosFrom] at h
    cases hp : parse_wrk (wrkOut i) with
    | error e => rw [hp] at h; cases h
    | ok m =>
      rw [hp] at h
      cases hrec : runScenariosFrom wrkOut (i + 1) rest with
      | error e => rw [hrec] at h; cases h
      | ok tl =>
        rw [hrec] at h
        simp only at h
        cases h
        obtain ⟨hlen, hnames⟩ := ih (i + 1) tl hrec
        refine ⟨by simp [hlen], fun idx h1 h2 => ?_⟩
        cases idx with
        | zero => rfl
        | succ idx' =>
          simpa using hnames idx' (by simpa using h1) (by simpa using h2)

/-- C4: every target key present in the final result set maps to exactly
`SCENARIOS.length` scenario results whose names equal the matrix names position
by position, and a present key can only come from a configured target whose
build, start and readiness phases all succeeded and whose scenario loop
completed — so (with distinct configured keys) a target with a failed phase has
no key at all, and no partial per-target sequence is ever retained. -/
theorem c4_result_set_shape (docker : Bool) (fws : List FwEnv) (k : String)
    (rs : List ScenarioResult) (hmem : (k, rs) ∈ (runMain docker fws).results) :
    rs.length = SCENARIOS.length ∧
    (∀ (i : Nat) (h1 : i < rs.length) (h2 : i < SCENARIOS.length),
      (rs.get ⟨i, h1⟩).name = (SCENARIOS.get ⟨i, h2⟩).name) ∧
    (∃ fw, fw ∈ fws ∧ fw.key = k ∧ phasesOk docker fw = true) ∧
    ((fws.map FwEnv.key).Nodup →
      ∀ fw, fw ∈ fws → phasesOk docker fw = false → ¬ fw.key = k) := by
  have hmem' : (k, rs) ∈ (mainBody docker fws).results := hmem
  rcases results_foldl docker fws initState k rs hmem' with hinit | ⟨fw, hfw, hk, hok, hrun⟩
  · cases hinit
  · obtain ⟨hlen, hnames⟩ := runScenariosFrom_ok_shape fw.wrkOut SCENARIOS 0 rs hrun
    refine ⟨hlen, hnames, ⟨fw, hfw, hk.symm, hok⟩, fun hnd fw' hfw' hbad hkey => ?_⟩
    have : fw' = fw := List.inj_on_of_nodup_map hnd hfw' hfw (by rw [hkey, ← hk])
    rw [this, hok] at hbad
    cases hbad

set_option maxRecDepth 10000 in
/-- Closed instantiation of `c4_result_set_shape` discharging its hypothesis at
a successful one-target docker run. -/
theorem c4_witness :
    zeroScenarioResults.length = SCENARIOS.length := by
  exact (c4_result_set_shape true [fwEnvA] ("metassr") zeroScenarioResults
    (by with_unfolding_all decide)).1

/-! ## C7 -/

theorem reMatchNumWord_split (numStr : List Char) (u0 : Char) (us : List Char)
    (hne : numStr ≠ []) (hnum : ∀ x ∈ numStr, isDigitDot x = true)
    (hu0d : isDigitDot u0 = false) (hu0w : isWordChar u0 = true)
    (husw : ∀ x ∈ us, isWordChar x = true) :
    reMatchNumWord (numStr ++ u0 :: us) = some (numStr, u0 :: us) := by
  have htw : (numStr ++ u0 :: us).takeWhile isDigitDot = numStr :=
    takeWhile_append_stops isDigitDot numStr u0 us hnum hu0d
  obtain ⟨a, as, rfl⟩ : ∃ a as, numStr = a :: as := by
    cases numStr with
    | nil => exact absurd rfl hne
    | cons a as => exact ⟨a, as, rfl⟩
  have hget : ((a :: as) ++ u0 :: us).get? (as.length + 1) = some u0 := by
    rw [show as.length + 1 = (a :: as).length from rfl]
    exact get?_append_len (a :: as) us u0
  have hfind : findSplitLen ((a :: as) ++ u0 :: us) (as.length + 1) =
      some (as.length + 1) := by
    simp only [findSplitLen, hget]
    rw [if_pos hu0w]
  have htake : ((a :: as) ++ u0 :: us).take (as.length + 1) = a :: as := by
    rw [show as.length + 1 = (a :: as).length from rfl]
    exact List.take_left (a :: as) (u0 :: us)
  have hdrop : ((a :: as) ++ u0 :: us).drop (as.length + 1) = u0 :: us := by
    rw [show as.length + 1 = (a :: as).length from rfl]
    exact List.drop_left (a :: as) (u0 :: us)
  have hword : (u0 :: us).takeWhile isWordChar = u0 :: us := by
    refine takeWhile_of_all isWordChar (u0 :: us) (fun x hx => ?_)
    rcases List.mem_cons.mp hx with hx0 | hxs
    · rw [hx0]; exact hu0w
    · exact husw x hxs
  simp only [reMatchNumWord, htw, List.length_cons, hfind, htake, hdrop, hword]

/-- C7: for every latency string of the form decimal-number-then-unit-word, the
embedded `parse_latency_ms` divides by 1000 for unit `us`, keeps the value for
`ms`, multiplies by 1000 for `s`, and leaves any other unit word as-is
(already milliseconds); concretely `"250us"` gives 0.25 ms, `"1.5s"` gives
1500 ms, `"12ms"` gives 12 ms. -/
theorem c7_latency_unit_normalization (numStr : List Char) (u0 : Char)
    (us : List Char) (q : ℚ) (hne : numStr ≠ [])
    (hnum : ∀ x ∈ numStr, isDigitDot x = true)
    (hu0d : isDigitDot u0 = false) (hu0w : isWordChar u0 = true)
    (husw : ∀ x ∈ us, isWordChar x = true)
    (hq : pythonFloat numStr = some q) :
    parse_latency_ms (numStr ++ u0 :: us) =
      some (if (u0 :: us).map Char.toLower = ['u', 's'] then q / 1000
            else if (u0 :: us).map Char.toLower = ['m', 's'] then q
            else if (u0 :: us).map Char.toLower = ['s'] then q * 1000
            else q) ∧
    parse_latency_ms (("250us").data) = some (1 / 4) ∧
    parse_latency_ms (("1.5s").data) = some 1500 ∧
    parse_latency_ms (("12ms").data) = some 12 := by
  refine ⟨?_, by with_unfolding_all rfl, by with_unfolding_all rfl,
    by with_unfolding_all rfl⟩
  have hsplit := reMatchNumWord_split numStr u0 us hne hnum hu0d hu0w husw
  have hempty : (numStr ++ u0 :: us).isEmpty = false := by
    cases numStr with
    | nil => exact absurd rfl hne
    | cons a as => rfl
  simp only [parse_latency_ms, hempty, Bool.false_eq_true, if_false, hsplit, hq]
  split_ifs <;> rfl

/-- Closed instantiation of `c7_latency_unit_normalization` discharging its
hypotheses at the input `"250us"`. -/
theorem c7_witness :
    parse_latency_ms (("250").data ++ 'u' :: ("s").data) =
      some (if ('u' :: ("s").data).map Char.toLower = ['u', 's'] then (250 : ℚ) / 1000
            else if ('u' :: ("s").data).map Char.toLower = ['m', 's'] then 250
            else if ('u' :: ("s").data).map Char.toLower = ['s'] then 250 * 1000
            else 250) := by
  exact (c7_latency_unit_normalization (("250").data) 'u' (("s").data) 250
    (by decide) (by decide) (by decide) (by decide) (by decide)
    (by with_unfolding_all rfl)).1

/-! ## C10 -/

theorem scanDigitsLine_digits (a r : List Char) (hne : a ≠ [])
    (hdig : ∀ x ∈ a, x.isDigit = true) :
    scanDigitsLine (a ++ ',' :: r) = some a := by
  cases a with
  | nil => exact absurd rfl hne
  | cons a0 as =>
    have ha0 : a0.isDigit = true := hdig a0 (by simp)
    have htake : (as ++ ',' :: r).takeWhile Char.isDigit = as :=
      takeWhile_append_stops Char.isDigit as ',' r
        (fun x hx => hdig x (by simp [hx])) (by decide)
    rw [List.cons_append]
    simp [scanDigitsLine, ha0, List.takeWhile_cons, htake]

theorem matchSocketErr_socketLine (a b c d : List Char) (hne : a ≠ [])
    (hdig : ∀ x ∈ a, x.isDigit = true) :
    matchSocketErr (socketLine a b c d) = some a := by
  have heq : socketLine a b c d =
      (("Socket errors: connect ").data) ++ (a ++ ((", read ").data ++ (b ++
        ((", write ").data ++ (c ++ ((", timeout ").data ++ d)))))) := by
    simp [socketLine, List.append_assoc]
  have hstrip : stripLit (("Socket errors:").data)
      ((("Socket errors: connect ").data) ++ (a ++ ((", read ").data ++ (b ++
        ((", write ").data ++ (c ++ ((", timeout ").data ++ d))))))) =
      some ((" connect ").data ++ (a ++ ((", read ").data ++ (b ++
        ((", write ").data ++ (c ++ ((", timeout ").data ++ d))))))) := by
    with_unfolding_all rfl
  simp only [matchSocketErr, heq, hstrip]
  rw [scanDigitsLine_skip ((" connect ").data) _ (by decide)]
  have hcomma : (", read ").data ++ (b ++ ((", write ").data ++ (c ++
      ((", timeout ").data ++ d)))) =
      ',' :: ((" read ").data ++ (b ++ ((", write ").data ++ (c ++
        ((", timeout ").data ++ d))))) := by
    with_unfolding_all rfl
  rw [hcomma]
  exact scanDigitsLine_digits a _ hne hdig

/-- C10: for a generator output whose socket-error line lists the four labeled
counts `connect a, read b, write c, timeout d`, the extractor's `errors` field
equals only the first integer on the line (the connect count `a`) — not the sum
of all listed socket-error counts whenever the other counts are not all zero;
on the concrete sample report with `connect 5, read 93, write 0, timeout 17`
the field is 5. -/
theorem c10_socket_errors_first_count_only (a b c d : List Char) (hne : a ≠ [])
    (hdig : ∀ x ∈ a, x.isDigit = true) :
    extractErrors (socketLine a b c d) = natOfDigits a ∧
    (0 < natOfDigits b + natOfDigits c + natOfDigits d →
      extractErrors (socketLine a b c d) ≠
        natOfDigits a + (natOfDigits b + natOfDigits c + natOfDigits d)) ∧
    extractErrors sampleWrkOut = 5 := by
  have hsearch := reSearch_head_some matchSocketErr (socketLine a b c d) a
    (matchSocketErr_socketLine a b c d hne hdig)
  have h1 : extractErrors (socketLine a b c d) = natOfDigits a := by
    simp [extractErrors, hsearch]
  refine ⟨h1, fun hpos => ?_, by with_unfolding_all rfl⟩
  rw [h1]
  omega

/-- Closed instantiation of `c10_socket_errors_first_count_only` discharging its
hypotheses at the counts `connect 12, read 3, write 0, timeout 4`. -/
theorem c10_witness :
    extractErrors (socketLine (("12").data) (("3").data) (("0").data) (("4").data)) =
      natOfDigits (("12").data) := by
  exact (c10_socket_errors_first_count_only (("12").data) (("3").data) (("0").data)
    (("4").data) (by decide) (by decide)).1

end MetassrBench
